import Mathlib

/-!
Verification of the `chatgpt-tests` repository: a CLI tool that drives a
conversational AI provider through a generate-run-fix loop to produce unit
tests for exported functions of a TypeScript source tree.

The development shallowly embeds, over `List Char` and explicit state passing:

* `extractCodeBlocks` (src/ai/chatGPT/chatGPT.ts and the Claude client):
  the fenced-code-block scanner implemented there by the JavaScript regex
  `三backticks(?:javascript|typescript)?\n([^]*?)三backticks` with `matchAll`,
  each captured block trimmed;
* the `Claude` AI conversation client (claude.ts, the revision with the
  3-attempt provider retry loop): `startConversation`, `stopConversation`,
  `generateInitialTests`, `provideFeedback`, with the provider modelled as an
  oracle indexed by the call number;
* the orchestration loop `runCommand` (src/cli/commands/run/run.ts): the
  per-unit bounded retry loop with its collaborators abstracted as an
  environment of oracles, instrumented with call counts;
* `getFilesRecursively` (run.ts): the source-file discovery walk over a
  model filesystem tree.

Sleeps, console logging and actual file IO carry no information relevant to
the properties and are elided.
-/

/-! ## Characters and small string utilities -/

/-- Backtick character, written via its code point. -/
def bt : Char := Char.ofNat 96

/-- Whitespace predicate used by the JavaScript `String.prototype.trim`:
space, tab, line feed, carriage return, vertical tab, form feed and
no-break space (the further Unicode space separators are not needed by any
input considered here and are handled identically by the model). -/
def isJsWS (c : Char) : Bool :=
  c == ' ' || c == '\t' || c == '\n' || c == '\r' || c == '\x0b' || c == '\x0c' || c == '\xa0'

/-- Model of `String.prototype.trim`: drop whitespace from both ends. -/
def trimJS (s : List Char) : List Char :=
  ((s.dropWhile isJsWS).reverse.dropWhile isJsWS).reverse

/-- Model of `String.prototype.includes`: `pat` occurs contiguously in the
argument. -/
def hasSubstr (pat : List Char) : List Char → Bool
  | [] => pat.isPrefixOf []
  | c :: cs => pat.isPrefixOf (c :: cs) || hasSubstr pat cs

/-! ## Code block extraction

The TypeScript source (`extractCodeBlocks` in chatGPT.ts / claude.ts) runs
the global regex matching a fence of three backticks, an optional language
tag `javascript` or `typescript`, a line feed, a lazily matched body, and a
closing fence of three backticks; it returns the trimmed bodies in order.
The scanner below reproduces the regex engine behaviour: try to match an
opening fence at each position from the left; on a match, the body extends
to the nearest closing fence (lazy match) and scanning resumes after it; an
opening fence with no closing fence anywhere later fails, and no further
match is possible since no three consecutive backticks remain. -/

/-- Closing fence: three backticks. -/
def fenceTicks : List Char := [bt, bt, bt]

/-- Opening fence with the `javascript` tag. -/
def openJS : List Char :=
  [bt, bt, bt, 'j', 'a', 'v', 'a', 's', 'c', 'r', 'i', 'p', 't', '\n']

/-- Opening fence with the `typescript` tag. -/
def openTS : List Char :=
  [bt, bt, bt, 't', 'y', 'p', 'e', 's', 'c', 'r', 'i', 'p', 't', '\n']

/-- Opening fence with no language tag. -/
def openBare : List Char := [bt, bt, bt, '\n']

/-- Attempt to match the opening fence `三backticks(?:javascript|typescript)?\n`
at the head of `s`; on success return the text after it. The alternation is
tried in regex order; the alternatives exclude each other, and when the
optional group matches but is not followed by a line feed the regex engine
backtracks to the empty alternative, which is exactly the `openBare` test. -/
def matchOpen (s : List Char) : Option (List Char) :=
  if openJS.isPrefixOf s then some (s.drop openJS.length)
  else if openTS.isPrefixOf s then some (s.drop openTS.length)
  else if openBare.isPrefixOf s then some (s.drop openBare.length)
  else none

/-- Split `s` at the first closing fence: return the text before it and the
text after it, or `none` when no fence occurs. -/
def splitAtFence : List Char → Option (List Char × List Char)
  | [] => none
  | c :: cs =>
    if fenceTicks.isPrefixOf (c :: cs) then some ([], (c :: cs).drop 3)
    else
      match splitAtFence cs with
      | some (pre, post) => some (c :: pre, post)
      | none => none

/-- Scanner for the global regex: `fuel` bounds the number of examined
positions (a fuel of at least the length of the string is always enough,
and the wrapper `extractCodeBlocks` supplies it). -/
def extractAux : Nat → List Char → List (List Char)
  | 0, _ => []
  | _ + 1, [] => []
  | fuel + 1, c :: cs =>
    match matchOpen (c :: cs) with
    | some rest =>
      match splitAtFence rest with
      | some (content, after) => trimJS content :: extractAux fuel after
      | none => []
    | none => extractAux fuel cs

/-- Model of `extractCodeBlocks` from chatGPT.ts / claude.ts. -/
def extractCodeBlocks (response : List Char) : List (List Char) :=
  extractAux response.length response

/-! ## Error taxonomy -/

/-- Errors appearing in the embedded fragment. `ErrConversationNotFound` is
the class defined in chatGPT.ts / claude.ts; the two `failed...` values are
the terminal errors returned by the Claude client after exhausting its
retry budget; `other` stands for an arbitrary further JavaScript error
value (provider errors, thrown infrastructure errors and so on). -/
inductive Err where
  | conversationNotFound
  | failedToGenerate
  | failedToProvideFeedback
  | other (code : Nat)
deriving DecidableEq, Repr

/-! ## The Claude AI conversation client (claude.ts, retry revision) -/

/-- Message roles of the conversation history. -/
inductive Role where
  | user
  | assistant
deriving DecidableEq, Repr

/-- Entry of `conversation.messages` (type `ClaudeMessage` in the source). -/
structure Message where
  role : Role
  content : List Char
deriving DecidableEq, Repr

/-- Fields of `TConversation` from src/ai/ai.ts, as handed to
`startConversation`. Ids are modelled as natural numbers (the source draws
opaque fresh uuid strings). -/
structure TConversation where
  id : Nat
  fileLocation : List Char
  relativePath : List Char
  functionName : List Char
  functionCode : List Char
  functionImports : List Char
  functionTypes : List Char
deriving DecidableEq, Repr

/-- Entry of the live registry (`TClaudeConversation` in the source). -/
structure TClaudeConversation extends TConversation where
  messages : List Message
deriving DecidableEq, Repr

/-- Part of a provider response body (`response.content` elements): a text
part or a part of any other type, which the extraction loop skips. -/
inductive ContentPart where
  | text (s : List Char)
  | other
deriving DecidableEq, Repr

/-- Provider response: the `content` array. -/
structure ProviderResponse where
  content : List ContentPart
deriving DecidableEq, Repr

/-- Outcome of one `claudeClient.messages.create` call: a resolved response
or a rejected promise whose error stringifies to `msg`. -/
inductive ProviderOutcome where
  | ok (resp : ProviderResponse)
  | err (msg : List Char)
deriving DecidableEq, Repr

/-- Oracle for the provider: the outcome of the n-th `messages.create` call
issued by the operation under scrutiny. -/
def Provider : Type := Nat → ProviderOutcome

/-- State of a `Claude` class instance: the `conversations` keyed map and a
counter supplying the next fresh id (modelling uuid freshness). -/
structure ClaudeState where
  conversations : Nat → Option TClaudeConversation
  nextId : Nat

/-- Initial state of a freshly constructed client. -/
def ClaudeState.empty : ClaudeState :=
  { conversations := fun _ => none, nextId := 0 }

/-- Store a conversation under a key (JavaScript keyed-map assignment). -/
def setConv (st : ClaudeState) (key : Nat) (c : TClaudeConversation) : ClaudeState :=
  { st with conversations := fun k => if k = key then some c else st.conversations k }

namespace Claude

/-- Model of `Claude.startConversation`: allocate a fresh id, store the
conversation with an empty message history, return the id and no error. -/
def startConversation (st : ClaudeState) (conversation : TConversation) :
    (Nat × Option Err) × ClaudeState :=
  let id := st.nextId
  let conv : TClaudeConversation := { conversation with id := id, messages := [] }
  ((id, none), { setConv st id conv with nextId := st.nextId + 1 })

/-- Model of `Claude.stopConversation` (identical to
`ChatGPT.stopConversation` in chatGPT.ts): unknown id yields
`ErrConversationNotFound`; otherwise the entry is deleted. -/
def stopConversation (st : ClaudeState) (conversationID : Nat) :
    Option Err × ClaudeState :=
  match st.conversations conversationID with
  | none => (some Err.conversationNotFound, st)
  | some _ =>
    (none, { st with conversations := fun k => if k = conversationID then none else st.conversations k })

/-- Concatenation of the text parts of a provider response, as built by the
`for (const part of response.content)` loop. -/
def rawOf : List ContentPart → List Char
  | [] => []
  | ContentPart.text s :: rest => s ++ rawOf rest
  | ContentPart.other :: rest => rawOf rest

/-- Initial user prompt built by `Claude.generateInitialTests` from the
conversation fields (string interpolation written as concatenation;
apostrophes, backticks and braces appear escaped). -/
def mkGenUserPrompt (c : TConversation) : List Char :=
  ("Write comprehensive unit tests for the following function, which is defined in the file \x27").data
  ++ c.fileLocation
  ++ ("\x27. \nUse the import statement \x60import \x7b ").data
  ++ c.functionName
  ++ (" \x7d from \x27").data
  ++ c.relativePath
  ++ ("\x27;\x60 to import the function. Do not use any external libraries other than jest.\n\nThe imports in this file that you may need to know about are: \n").data
  ++ c.functionImports
  ++ ("\n\nThe types used are:\n").data
  ++ c.functionTypes
  ++ ("\n\nDo not mock the typs, interfaces, enums, etc. Rather, import them from the same import statement given above (if available), or if not in the given imports, import them from the same file as the function (e.g. import \x7b <TYPE GOES HERE> \x7d from \x27").data
  ++ c.relativePath
  ++ ("\x27;).\n\nInclude the tests inside a single \x60\x60\x60typescript\x60\x60\x60 code block, and avoid additional explanations.\n\n").data
  ++ c.functionCode

/-- Content of the user message appended by `Claude.provideFeedback`. -/
def mkFeedbackContent (feedback : List Char) : List Char :=
  ("The following tests failed:\n\n").data
  ++ feedback
  ++ ("\n\nRevise the tests to address the issues. Include the updated tests in a single \x60\x60\x60typescript\x60\x60\x60 code block.").data

/-- Retry loop of `generateInitialTests` (`for i in 0..<3`): `remaining` is
the number of loop iterations left, `i` the call index. Returns the result
pair, the message history after the loop, and the number of provider calls
made. A provider error is logged and retried after a sleep (elided). -/
def genAttempts (provider : Provider) (msgs : List Message) :
    Nat → Nat → (List (List Char) × Option Err) × List Message × Nat
  | 0, _ => (([[]], some Err.failedToGenerate), msgs, 0)
  | remaining + 1, i =>
    match provider i with
    | ProviderOutcome.ok resp =>
      let rawResponse := rawOf resp.content
      ((extractCodeBlocks rawResponse, none),
        msgs ++ [⟨Role.assistant, rawResponse⟩], 1)
    | ProviderOutcome.err _ =>
      let (r, m, calls) := genAttempts provider msgs remaining (i + 1)
      (r, m, calls + 1)

/-- Model of `Claude.generateInitialTests` (claude.ts retry revision).
Returns the `[testBlocks, error]` pair, the client state after the call and
the number of provider calls made. -/
def generateInitialTests (provider : Provider) (st : ClaudeState)
    (conversationID : Nat) :
    (List (List Char) × Option Err) × ClaudeState × Nat :=
  match st.conversations conversationID with
  | none => (([[]], some Err.conversationNotFound), st, 0)
  | some conversation =>
    let userPrompt := mkGenUserPrompt conversation.toTConversation
    let msgs0 : List Message := [⟨Role.user, userPrompt⟩]
    let (r, msgs, calls) := genAttempts provider msgs0 3 0
    (r, setConv st conversationID { conversation with messages := msgs }, calls)

/-- Model of `messages.splice(messages.length - 2, 1)`: remove the
second-to-last element. JavaScript splice clamps a negative start index to
zero, so a one-element array loses its only element and an empty array is
unchanged. -/
def spliceSecondLast (msgs : List Message) : List Message :=
  let start := if 2 ≤ msgs.length then msgs.length - 2 else 0
  msgs.take start ++ msgs.drop (start + 1)

/-- Text tested for by the context-length-exceeded branch of
`provideFeedback` via `String(e).includes(...)`. -/
def promptTooLongMsg : List Char := ("prompt is too long").data

/-- Retry loop of `provideFeedback`: like `genAttempts`, but a rejected
call whose error mentions `prompt is too long` splices out the
second-to-last history message before the next attempt (the
`rate_limit_error` branch only sleeps, which is elided). -/
def fbAttempts (provider : Provider) :
    Nat → Nat → List Message → (List (List Char) × Option Err) × List Message × Nat
  | 0, _, msgs => (([[]], some Err.failedToProvideFeedback), msgs, 0)
  | remaining + 1, i, msgs =>
    match provider i with
    | ProviderOutcome.ok resp =>
      let rawResponse := rawOf resp.content
      ((extractCodeBlocks rawResponse, none),
        msgs ++ [⟨Role.assistant, rawResponse⟩], 1)
    | ProviderOutcome.err m =>
      let msgs1 := if hasSubstr promptTooLongMsg m then spliceSecondLast msgs else msgs
      let (r, m2, calls) := fbAttempts provider remaining (i + 1) msgs1
      (r, m2, calls + 1)

/-- Model of `Claude.provideFeedback` (claude.ts retry revision). Returns
the `[testBlocks, error]` pair, the client state after the call and the
number of provider calls made. -/
def provideFeedback (provider : Provider) (st : ClaudeState)
    (conversationID : Nat) (feedback : List Char) :
    (List (List Char) × Option Err) × ClaudeState × Nat :=
  match st.conversations conversationID with
  | none => (([[]], some Err.conversationNotFound), st, 0)
  | some conversation =>
    let failureMessage : Message := ⟨Role.user, mkFeedbackContent feedback⟩
    let msgs0 := conversation.messages ++ [failureMessage]
    let (r, msgs, calls) := fbAttempts provider 3 0 msgs0
    (r, setConv st conversationID { conversation with messages := msgs }, calls)

/-- Modelled from the spec: the pruning step as the specification words it,
removing the oldest message that is not the initial prompt. Used only to
compare the specified behaviour against the code above. -/
def removeOldestNonInitial : List Message → List Message
  | m0 :: _m1 :: rest => m0 :: rest
  | short => short

/-- Modelled from the spec: `provideFeedback` as the specification words
it, identical to the code except that the context-length-exceeded branch
prunes the oldest non-initial message. Used only for comparison. -/
def fbAttemptsSpec (provider : Provider) :
    Nat → Nat → List Message → (List (List Char) × Option Err) × List Message × Nat
  | 0, _, msgs => (([[]], some Err.failedToProvideFeedback), msgs, 0)
  | remaining + 1, i, msgs =>
    match provider i with
    | ProviderOutcome.ok resp =>
      let rawResponse := rawOf resp.content
      ((extractCodeBlocks rawResponse, none),
        msgs ++ [⟨Role.assistant, rawResponse⟩], 1)
    | ProviderOutcome.err m =>
      let msgs1 := if hasSubstr promptTooLongMsg m then removeOldestNonInitial msgs else msgs
      let (r, m2, calls) := fbAttemptsSpec provider remaining (i + 1) msgs1
      (r, m2, calls + 1)

/-- Modelled from the spec: wrapper of `fbAttemptsSpec`, mirroring
`provideFeedback`. -/
def provideFeedbackSpec (provider : Provider) (st : ClaudeState)
    (conversationID : Nat) (feedback : List Char) :
    (List (List Char) × Option Err) × ClaudeState × Nat :=
  match st.conversations conversationID with
  | none => (([[]], some Err.conversationNotFound), st, 0)
  | some conversation =>
    let failureMessage : Message := ⟨Role.user, mkFeedbackContent feedback⟩
    let msgs0 := conversation.messages ++ [failureMessage]
    let (r, msgs, calls) := fbAttemptsSpec provider 3 0 msgs0
    (r, setConv st conversationID { conversation with messages := msgs }, calls)

end Claude

/-! ## The orchestration loop (src/cli/commands/run/run.ts)

The loop `runCommand` coordinates three collaborators per exported unit:
the AI service (`startConversation`, `generateInitialTests`,
`provideFeedback`, `stopConversation`), the language service
(`writeTestsToFile`, `runTests`) and a sleep. They are abstracted into an
environment of oracles per unit; `Except.error` stands for a rejected
promise (a thrown error), which for `generateInitialTests` models the
`throw initialTestsErr` re-throw inside the `try` block. `runTests` and
`provideFeedback` are indexed by the attempt number (`numTries`, 1-based),
which identifies each call uniquely since each loop iteration performs at
most one of each. -/

/-- Oracles for one unit of `runCommand`. -/
structure Env where
  startConvo : Except Err Nat
  genInitial : Except Err (List (List Char))
  runTests : Nat → Except Err (Bool × List Char)
  provideFeedback : Nat → List Char → List (List Char) × Option Err

/-- Counts of the observable collaborator calls made while processing one
unit, plus the successive contents written to the test file. -/
structure Counts where
  gen : Nat
  run : Nat
  fb : Nat
  stop : Nat
  writes : List (List (List Char))
deriving DecidableEq, Repr

/-- Terminal outcome of the per-unit retry loop: the runner passed, the
attempt budget was exhausted (`break` after `stopConversation`), or a
thrown error was caught by the `catch` and aborted the unit (`break`). -/
inductive Outcome where
  | passed
  | exhausted
  | abortedUnit
deriving DecidableEq, Repr

/-- Body of the `while (!allTestsPassing)` loop of `runCommand`. The second
`Nat` argument is the value of the mutable `numTries` at the top of the
iteration (before the `numTries += 1`). `fuel` is a structural bound on the
number of iterations; `runLoop` supplies `maxTries + 1`, which is always
enough because the loop breaks once `numTries` exceeds `maxTries`, and the
fuel-exhausted value is the same as the budget-exhausted one. -/
def runLoopAux (env : Env) (maxTries : Nat) : Nat → Nat → Outcome × Counts
  | 0, _ => (Outcome.exhausted, ⟨0, 0, 0, 1, []⟩)
  | fuel + 1, prev =>
    let numTries := prev + 1
    if maxTries < numTries then
      (Outcome.exhausted, ⟨0, 0, 0, 1, []⟩)
    else if numTries = 1 then
      match env.genInitial with
      | Except.error _ => (Outcome.abortedUnit, ⟨1, 0, 0, 0, []⟩)
      | Except.ok initialTests =>
        match env.runTests numTries with
        | Except.error _ => (Outcome.abortedUnit, ⟨1, 1, 0, 0, [initialTests]⟩)
        | Except.ok (true, _) => (Outcome.passed, ⟨1, 1, 0, 0, [initialTests]⟩)
        | Except.ok (false, results) =>
          let revised := env.provideFeedback numTries results
          let rest := runLoopAux env maxTries fuel numTries
          (rest.1, ⟨1 + rest.2.gen, 1 + rest.2.run, 1 + rest.2.fb, rest.2.stop,
            initialTests :: revised.1 :: rest.2.writes⟩)
    else
      match env.runTests numTries with
      | Except.error _ => (Outcome.abortedUnit, ⟨0, 1, 0, 0, []⟩)
      | Except.ok (true, _) => (Outcome.passed, ⟨0, 1, 0, 0, []⟩)
      | Except.ok (false, results) =>
        let revised := env.provideFeedback numTries results
        let rest := runLoopAux env maxTries fuel numTries
        (rest.1, ⟨rest.2.gen, 1 + rest.2.run, 1 + rest.2.fb, rest.2.stop,
          revised.1 :: rest.2.writes⟩)

/-- Retry loop of `runCommand` for one unit, entered with `numTries = 0`
and `allTestsPassing = false`. -/
def runLoop (env : Env) (maxTries : Nat) : Outcome × Counts :=
  runLoopAux env maxTries (maxTries + 1) 0

/-- Processing of one exported unit by `runCommand`: `startConversation`,
then the retry loop. A `startConversation` error is re-thrown outside any
`try`, so it escapes as `Except.error`; every other path returns normally. -/
def processUnit (env : Env) (maxTries : Nat) : Except Err (Outcome × Counts) :=
  match env.startConvo with
  | Except.error e => Except.error e
  | Except.ok _chatId => Except.ok (runLoop env maxTries)

/-- Processing of a list of units (the `for (const func of ...)` loop over
one file, or, flattened, over all files): a thrown error aborts everything,
otherwise the per-unit results are collected in order. -/
def runUnits (envs : List Env) (maxTries : Nat) :
    Except Err (List (Outcome × Counts)) :=
  match envs with
  | [] => Except.ok []
  | env :: rest =>
    match processUnit env maxTries with
    | Except.error e => Except.error e
    | Except.ok r =>
      match runUnits rest maxTries with
      | Except.error e => Except.error e
      | Except.ok rs => Except.ok (r :: rs)

/-- Model of `runCommand` over the discovered files, each contributing a
list of exported units (the surrounding `for (const file of files)` loop).
The trailing `cleanup` call carries no observable state here. -/
def runCommand (files : List (List Env)) (maxTries : Nat) :
    Except Err (List (Outcome × Counts)) :=
  runUnits files.flatten maxTries

/-! ## File discovery (`getFilesRecursively` in run.ts) -/

/-- Entry of the model filesystem: a file or a directory with entries. -/
inductive FSEntry where
  | file (name : List Char)
  | dir (name : List Char) (entries : List FSEntry)

/-- Model of `path.join(dir, file)`. -/
def joinPath (dir name : List Char) : List Char := dir ++ '/' :: name

/-- Model of `getFilesRecursively` from run.ts, with a structural fuel as
first argument bounding the number of walk steps (any fuel of at least the
number of filesystem entries gives the full walk; every property proved
below holds for every fuel). Directory entries recurse into the
subdirectory; files ending in `.js` or `.ts` are collected unless their
full path contains `.test.`, `.spec.` or `.d.`. -/
def getFilesRecursively : Nat → List Char → List FSEntry → List (List Char)
  | 0, _, _ => []
  | _ + 1, _, [] => []
  | fuel + 1, dir, FSEntry.file name :: rest =>
    let fullPath := joinPath dir name
    if (".js").data.isSuffixOf fullPath || (".ts").data.isSuffixOf fullPath then
      if hasSubstr (".test.").data fullPath || hasSubstr (".spec.").data fullPath
          || hasSubstr (".d.").data fullPath then
        getFilesRecursively fuel dir rest
      else
        fullPath :: getFilesRecursively fuel dir rest
    else
      getFilesRecursively fuel dir rest
  | fuel + 1, dir, FSEntry.dir name entries :: rest =>
    getFilesRecursively fuel (joinPath dir name) entries ++ getFilesRecursively fuel dir rest

/-! ## Helper lemmas about extraction -/

theorem isPrefixOf_append_self (p x : List Char) : p.isPrefixOf (p ++ x) = true := by
  induction p with
  | nil => simp [List.isPrefixOf]
  | cons a as ih => simp [List.isPrefixOf, ih]

theorem openJS_not_prefix (x : List Char) : openJS.isPrefixOf (openTS ++ x) = false := by
  simp [openJS, openTS, List.isPrefixOf]

theorem matchOpen_openTS (x : List Char) : matchOpen (openTS ++ x) = some x := by
  rw [matchOpen, openJS_not_prefix]
  simp [isPrefixOf_append_self]

theorem noFencePrefix_ext (xs t : List Char) (h : fenceTicks.isPrefixOf xs = false) :
    fenceTicks.isPrefixOf (xs ++ '\n' :: t) = false := by
  match xs with
  | [] => simp [fenceTicks, List.isPrefixOf, bt]
  | [a] => simp [fenceTicks, List.isPrefixOf, bt]
  | [a, b] => simp [fenceTicks, List.isPrefixOf, bt]
  | a :: b :: c :: l =>
    simp [fenceTicks, List.isPrefixOf] at h ⊢
    exact h

theorem splitAtFence_boundary (s : List Char) (h : hasSubstr fenceTicks s = false) :
    splitAtFence (s ++ '\n' :: fenceTicks) = some (s ++ ['\n'], []) := by
  induction s with
  | nil => decide
  | cons c cs ih =>
    rw [hasSubstr] at h
    simp only [Bool.or_eq_false_iff] at h
    have hf := noFencePrefix_ext (c :: cs) fenceTicks h.1
    rw [List.cons_append] at hf
    rw [List.cons_append, splitAtFence, hf]
    simp only [Bool.false_eq_true, if_false]
    rw [ih h.2]
    rfl

theorem extractAux_nil (k : Nat) : extractAux k [] = [] := by
  cases k <;> rfl

theorem dropWhile_append_split (p : Char → Bool) (xs ys : List Char) :
    List.dropWhile p (xs ++ ys) =
      if (List.dropWhile p xs).isEmpty then List.dropWhile p ys
      else List.dropWhile p xs ++ ys := by
  induction xs with
  | nil => simp
  | cons a as ih =>
    by_cases hp : p a = true
    · simpa [List.dropWhile, hp] using ih
    · simp [List.dropWhile, hp]

theorem trimJS_append_newline (s : List Char) : trimJS (s ++ ['\n']) = trimJS s := by
  rw [trimJS, trimJS, dropWhile_append_split]
  cases h : (List.dropWhile isJsWS s).isEmpty
  · simp only [Bool.false_eq_true, if_false]
    rw [List.reverse_append]
    simp [List.dropWhile, isJsWS]
  · simp only [if_true]
    rw [List.isEmpty_iff] at h
    rw [h]
    simp [List.dropWhile, isJsWS]

theorem extractAux_openTS (fuel : Nat) (x : List Char) :
    extractAux (fuel + 1) (openTS ++ x) =
      match splitAtFence x with
      | some (content, after) => trimJS content :: extractAux fuel after
      | none => [] := by
  have hshape : openTS ++ x =
      bt :: ([bt, bt, 't', 'y', 'p', 'e', 's', 'c', 'r', 'i', 'p', 't', '\n'] ++ x) := by
    simp [openTS]
  rw [hshape, extractAux, ← hshape, matchOpen_openTS]

/-- Re-addition of the typescript fences around a block body, in the block
format the repository itself produces and prompts for: opening fence with
the `typescript` tag, a line feed, the body, a line feed, closing fence. -/
def withTsFences (s : List Char) : List Char := openTS ++ s ++ '\n' :: fenceTicks

/-- Claim C8: code-block extraction is idempotent on its own output. For
every string `s` that equals the trimmed content of an extracted block (so
`s` is trim-invariant and contains no fence of three backticks), extracting
from the string obtained by re-adding the typescript fences around `s`
yields exactly `[s]`. -/
theorem C8_extraction_roundtrip (s : List Char) (h1 : trimJS s = s)
    (h2 : hasSubstr fenceTicks s = false) :
    extractCodeBlocks (withTsFences s) = [s] := by
  have hlen : (withTsFences s).length = (s.length + 17) + 1 := by
    simp [withTsFences, openTS, fenceTicks]
  rw [extractCodeBlocks, hlen, withTsFences, List.append_assoc, extractAux_openTS,
    splitAtFence_boundary s h2]
  show trimJS (s ++ ['\n']) :: extractAux (s.length + 17) [] = [s]
  rw [extractAux_nil, trimJS_append_newline, h1]

/-- Witness for C8 at a concrete block body. -/
theorem C8_extraction_roundtrip_witness :
    trimJS ("const test = true;").data = ("const test = true;").data ∧
    hasSubstr fenceTicks ("const test = true;").data = false ∧
    extractCodeBlocks (withTsFences ("const test = true;").data)
      = [("const test = true;").data] :=
  ⟨by decide, by decide, C8_extraction_roundtrip _ (by decide) (by decide)⟩

/-! ## Concrete fixtures used by witnesses and counterexamples -/

/-- Fixture conversation input. -/
def convA : TConversation :=
  ⟨0, ("src/utils/math.ts").data, ("./math").data, ("add").data,
    ("export function add(a, b) \x7b return a + b; \x7d").data,
    ("import \x7b sum \x7d from \x22./utils\x22;").data,
    ("type NumberInput = number;").data⟩

/-- Fixture registry entry as stored by `startConversation`. -/
def cconvA : TClaudeConversation := { convA with id := 0, messages := [] }

/-- Fixture client state holding `cconvA` under id 0. -/
def stA : ClaudeState := (Claude.startConversation ClaudeState.empty convA).2

/-- Claim C5: stopping a live conversation succeeds and removes it from the
registry; a second stop with the same id fails with `ConversationNotFound`
and leaves the state unchanged (idempotent removal is not provided). -/
theorem C5_stop_twice (st : ClaudeState) (id : Nat) (conv : TClaudeConversation)
    (h : st.conversations id = some conv) :
    (Claude.stopConversation st id).1 = none ∧
    (Claude.stopConversation st id).2.conversations id = none ∧
    Claude.stopConversation (Claude.stopConversation st id).2 id
      = (some Err.conversationNotFound, (Claude.stopConversation st id).2) := by
  unfold Claude.stopConversation
  rw [h]
  simp

/-- Witness for C5 on the fixture state. -/
theorem C5_stop_twice_witness :
    stA.conversations 0 = some cconvA ∧
    ((Claude.stopConversation stA 0).1 = none ∧
     (Claude.stopConversation stA 0).2.conversations 0 = none ∧
     Claude.stopConversation (Claude.stopConversation stA 0).2 0
       = (some Err.conversationNotFound, (Claude.stopConversation stA 0).2)) :=
  ⟨by decide, C5_stop_twice stA 0 cconvA (by decide)⟩

theorem genAttempts_success_shape (provider : Provider) (msgs : List Message) :
    ∀ remaining i, (Claude.genAttempts provider msgs remaining i).1.2 = none →
      ∃ raw,
        (Claude.genAttempts provider msgs remaining i).1.1 = extractCodeBlocks raw ∧
        (Claude.genAttempts provider msgs remaining i).2.1
          = msgs ++ [⟨Role.assistant, raw⟩] := by
  intro remaining
  induction remaining with
  | zero => intro i h; simp [Claude.genAttempts] at h
  | succ n ih =>
    intro i h
    rw [Claude.genAttempts] at h ⊢
    cases hp : provider i with
    | ok resp => exact ⟨Claude.rawOf resp.content, rfl, rfl⟩
    | err m =>
      rw [hp] at h
      exact ih (i + 1) h

/-- Claim C7: for a live conversation id, a successful
`generateInitialTests` call leaves the history equal to exactly one user
message (the prompt built from the conversation) followed by exactly one
assistant message (the raw completion), and returns the code blocks
extracted from that completion; for an unknown id it fails with
`ConversationNotFound` and leaves the state untouched. -/
theorem C7_generate_history (provider : Provider) (st : ClaudeState) (id : Nat) :
    (∀ conv, st.conversations id = some conv →
      (Claude.generateInitialTests provider st id).1.2 = none →
      ∃ raw,
        (Claude.generateInitialTests provider st id).1.1 = extractCodeBlocks raw ∧
        ((Claude.generateInitialTests provider st id).2.1.conversations id).map
            (fun c => c.messages)
          = some [⟨Role.user, Claude.mkGenUserPrompt conv.toTConversation⟩,
                  ⟨Role.assistant, raw⟩]) ∧
    (st.conversations id = none →
      Claude.generateInitialTests provider st id
        = (([[]], some Err.conversationNotFound), st, 0)) := by
  constructor
  · intro conv hconv hnone
    unfold Claude.generateInitialTests at hnone ⊢
    rw [hconv] at hnone ⊢
    obtain ⟨raw, hres, hmsgs⟩ :=
      genAttempts_success_shape provider
        [⟨Role.user, Claude.mkGenUserPrompt conv.toTConversation⟩] 3 0 hnone
    refine ⟨raw, hres, ?_⟩
    simp [setConv, hmsgs]
  · intro hnone
    unfold Claude.generateInitialTests
    rw [hnone]

def providerOkA : Provider :=
  fun _ => ProviderOutcome.ok ⟨[ContentPart.text ("const t = 1;").data]⟩

/-- Witness for C7 on the fixture state with an always-successful provider. -/
theorem C7_generate_history_witness :
    stA.conversations 0 = some cconvA ∧
    (Claude.generateInitialTests providerOkA stA 0).1.2 = none ∧
    (∃ raw,
      (Claude.generateInitialTests providerOkA stA 0).1.1 = extractCodeBlocks raw ∧
      ((Claude.generateInitialTests providerOkA stA 0).2.1.conversations 0).map
          (fun c => c.messages)
        = some [⟨Role.user, Claude.mkGenUserPrompt cconvA.toTConversation⟩,
                ⟨Role.assistant, raw⟩]) :=
  ⟨by decide, by decide,
    (C7_generate_history providerOkA stA 0).1 cconvA (by decide) (by decide)⟩

theorem genAttempts_allFail (provider : Provider)
    (h : ∀ j, ∃ m, provider j = ProviderOutcome.err m) (msgs : List Message) :
    ∀ remaining i,
      Claude.genAttempts provider msgs remaining i
        = (([[]], some Err.failedToGenerate), msgs, remaining) := by
  intro remaining
  induction remaining with
  | zero => intro i; rfl
  | succ n ih =>
    intro i
    obtain ⟨m, hm⟩ := h i
    rw [Claude.genAttempts, hm, ih (i + 1)]

theorem fbAttempts_allFail (provider : Provider)
    (h : ∀ j, ∃ m, provider j = ProviderOutcome.err m) :
    ∀ remaining i msgs,
      (Claude.fbAttempts provider remaining i msgs).1
          = ([[]], some Err.failedToProvideFeedback) ∧
      (Claude.fbAttempts provider remaining i msgs).2.2 = remaining := by
  intro remaining
  induction remaining with
  | zero => intro i msgs; exact ⟨rfl, rfl⟩
  | succ n ih =>
    intro i msgs
    obtain ⟨m, hm⟩ := h i
    rw [Claude.fbAttempts, hm]
    dsimp only
    have h2 := ih (i + 1)
      (if hasSubstr Claude.promptTooLongMsg m then Claude.spliceSecondLast msgs else msgs)
    rcases hG : Claude.fbAttempts provider n (i + 1)
        (if hasSubstr Claude.promptTooLongMsg m then Claude.spliceSecondLast msgs else msgs)
      with ⟨r, m2, c⟩
    rw [hG] at h2
    exact ⟨h2.1, by simpa using h2.2⟩

/-- Claim C6: with every provider call failing, generation and feedback
each make exactly 3 provider calls and then return the terminal
`Failed to generate initial tests` / `Failed to provide feedback` error as
a value rather than throwing. -/
theorem C6_retry_bound (provider : Provider) (st : ClaudeState) (id : Nat)
    (conv : TClaudeConversation) (feedback : List Char)
    (hconv : st.conversations id = some conv)
    (herr : ∀ j, ∃ m, provider j = ProviderOutcome.err m) :
    (Claude.generateInitialTests provider st id).1
        = ([[]], some Err.failedToGenerate) ∧
    (Claude.generateInitialTests provider st id).2.2 = 3 ∧
    (Claude.provideFeedback provider st id feedback).1
        = ([[]], some Err.failedToProvideFeedback) ∧
    (Claude.provideFeedback provider st id feedback).2.2 = 3 := by
  unfold Claude.generateInitialTests Claude.provideFeedback
  rw [hconv]
  dsimp only
  rw [genAttempts_allFail provider herr _ 3 0]
  have hf := fbAttempts_allFail provider herr 3 0
    (conv.messages ++ [⟨Role.user, Claude.mkFeedbackContent feedback⟩])
  rcases hG : Claude.fbAttempts provider 3 0
      (conv.messages ++ [⟨Role.user, Claude.mkFeedbackContent feedback⟩])
    with ⟨r, m2, c⟩
  rw [hG] at hf
  rw [hG]
  exact ⟨rfl, rfl, by simpa using hf.1, by simpa using hf.2⟩

def providerErrA : Provider := fun _ => ProviderOutcome.err ("API error").data

/-- Witness for C6 on the fixture state with an always-failing provider. -/
theorem C6_retry_bound_witness :
    stA.conversations 0 = some cconvA ∧
    ((Claude.generateInitialTests providerErrA stA 0).1
        = ([[]], some Err.failedToGenerate) ∧
     (Claude.generateInitialTests providerErrA stA 0).2.2 = 3 ∧
     (Claude.provideFeedback providerErrA stA 0 ("still failing").data).1
        = ([[]], some Err.failedToProvideFeedback) ∧
     (Claude.provideFeedback providerErrA stA 0 ("still failing").data).2.2 = 3) :=
  ⟨by decide,
    C6_retry_bound providerErrA stA 0 cconvA ("still failing").data (by decide)
      (fun _ => ⟨("API error").data, rfl⟩)⟩

/-- Claim C4, amended: when `provideFeedback` hits a
context-length-exceeded provider error it removes the second-to-last
message of the history (the message written immediately before the just
appended feedback message), not the oldest non-initial one, and retries
the provider call with the pruned history; under repeated consecutive
pruning the initial prompt itself can be removed. -/
theorem C4_prune_second_to_last (provider : Provider) (st : ClaudeState) (id : Nat)
    (conv : TClaudeConversation) (feedback eMsg : List Char) (resp : ProviderResponse)
    (hconv : st.conversations id = some conv)
    (h0 : provider 0 = ProviderOutcome.err eMsg)
    (hptl : hasSubstr Claude.promptTooLongMsg eMsg = true)
    (h1 : provider 1 = ProviderOutcome.ok resp) :
    Claude.provideFeedback provider st id feedback =
      ((extractCodeBlocks (Claude.rawOf resp.content), none),
       setConv st id
         { conv with
           messages :=
             Claude.spliceSecondLast
                 (conv.messages ++ [⟨Role.user, Claude.mkFeedbackContent feedback⟩])
               ++ [⟨Role.assistant, Claude.rawOf resp.content⟩] },
       2) := by
  unfold Claude.provideFeedback
  rw [hconv]
  simp only [Claude.fbAttempts, Nat.zero_add, h0, h1, hptl, if_true]

def msgs4 : List Message :=
  [⟨Role.user, ("p0").data⟩, ⟨Role.assistant, ("r1").data⟩,
   ⟨Role.user, ("f1").data⟩, ⟨Role.assistant, ("r2").data⟩]

def cconv4 : TClaudeConversation := { convA with id := 0, messages := msgs4 }

def st4 : ClaudeState := setConv ClaudeState.empty 0 cconv4

def provider4 : Provider :=
  fun i => if i = 0 then ProviderOutcome.err Claude.promptTooLongMsg
           else ProviderOutcome.ok ⟨[ContentPart.text ("ok").data]⟩

/-- Counterexample for C4 as stated: on a five-message history the code
(`provideFeedback`, which splices at index `length - 2`) and the
specification wording (`provideFeedbackSpec`, which prunes the oldest
non-initial message) produce different histories. -/
theorem C4_counterexample :
    ((Claude.provideFeedback provider4 st4 0 ("fb").data).2.1.conversations 0).map
        (fun c => c.messages)
      ≠ ((Claude.provideFeedbackSpec provider4 st4 0 ("fb").data).2.1.conversations 0).map
        (fun c => c.messages) := by
  decide

/-- Witness for the amended C4 on a concrete four-message history. -/
theorem C4_prune_second_to_last_witness :
    st4.conversations 0 = some cconv4 ∧
    provider4 0 = ProviderOutcome.err Claude.promptTooLongMsg ∧
    hasSubstr Claude.promptTooLongMsg Claude.promptTooLongMsg = true ∧
    provider4 1 = ProviderOutcome.ok ⟨[ContentPart.text ("ok").data]⟩ ∧
    Claude.provideFeedback provider4 st4 0 ("fb").data =
      ((extractCodeBlocks (Claude.rawOf (⟨[ContentPart.text ("ok").data]⟩ : ProviderResponse).content), none),
       setConv st4 0
         { cconv4 with
           messages :=
             Claude.spliceSecondLast
                 (cconv4.messages ++ [⟨Role.user, Claude.mkFeedbackContent ("fb").data⟩])
               ++ [⟨Role.assistant,
                     Claude.rawOf (⟨[ContentPart.text ("ok").data]⟩ : ProviderResponse).content⟩] },
       2) :=
  ⟨by decide, by decide, by decide, by decide,
    C4_prune_second_to_last provider4 st4 0 cconv4 ("fb").data Claude.promptTooLongMsg
      ⟨[ContentPart.text ("ok").data]⟩ (by decide) (by decide) (by decide) (by decide)⟩

/-! ## Claims about the orchestration loop -/

/-- Fixture environment: the runner passes on the first attempt. -/
def envC1 : Env :=
  { startConvo := Except.ok 0
    genInitial := Except.ok [("const t = 1;").data]
    runTests := fun _ => Except.ok (true, ("all passed").data)
    provideFeedback := fun _ _ => ([[]], none) }

/-- Counterexample for C1 as stated: with `maxTries = 1` and the runner
passing on attempt 1, the claim demands exactly one `stopConversation`
call, but the loop exits on success without stopping the conversation, so
the stop count is 0, not 1. -/
theorem C1_counterexample :
    ¬ ((match processUnit envC1 1 with
        | Except.ok r => some r.2.stop
        | Except.error _ => none) = some 1) := by
  decide

/-- Claim C1, amended: for every `maxTries ≥ 1`, if the runner reports
success on the first attempt, the loop performs exactly one generation
call, one run call, zero feedback calls and zero `stopConversation` calls
(the conversation is abandoned, not stopped, on the success path), and the
unit completes without an error reaching the caller. -/
theorem C1_first_try_success (maxTries : Nat) (env : Env) (cid : Nat)
    (blocks : List (List Char)) (res : List Char)
    (hmax : 1 ≤ maxTries)
    (hstart : env.startConvo = Except.ok cid)
    (hgen : env.genInitial = Except.ok blocks)
    (hrun : env.runTests 1 = Except.ok (true, res)) :
    processUnit env maxTries
      = Except.ok (Outcome.passed, ⟨1, 1, 0, 0, [blocks]⟩) := by
  unfold processUnit
  rw [hstart]
  unfold runLoop
  obtain ⟨k, rfl⟩ : ∃ k, maxTries = k + 1 := ⟨maxTries - 1, by omega⟩
  rw [runLoopAux]
  have hnot : ¬ (k + 1 < 0 + 1) := by omega
  simp only [hnot, if_false, Nat.zero_add, if_true, hgen, hrun]

/-- Witness for the amended C1 on the fixture environment. -/
theorem C1_first_try_success_witness :
    1 ≤ 1 ∧ envC1.startConvo = Except.ok 0 ∧
    envC1.genInitial = Except.ok [("const t = 1;").data] ∧
    envC1.runTests 1 = Except.ok (true, ("all passed").data) ∧
    processUnit envC1 1
      = Except.ok (Outcome.passed, ⟨1, 1, 0, 0, [[("const t = 1;").data]]⟩) :=
  ⟨by decide, rfl, rfl, rfl,
    C1_first_try_success 1 envC1 0 [("const t = 1;").data] ("all passed").data
      (by decide) rfl rfl rfl⟩

theorem runLoopAux_allFail (env : Env) (N : Nat) (res : Nat → List Char)
    (hrun : ∀ k, 1 ≤ k → k ≤ N → env.runTests k = Except.ok (false, res k)) :
    ∀ fuel t, 1 ≤ t → t + fuel = N + 1 →
      (runLoopAux env N fuel t).1 = Outcome.exhausted ∧
      (runLoopAux env N fuel t).2.gen = 0 ∧
      (runLoopAux env N fuel t).2.run = N - t ∧
      (runLoopAux env N fuel t).2.fb = N - t ∧
      (runLoopAux env N fuel t).2.stop = 1 := by
  intro fuel
  induction fuel with
  | zero =>
    intro t h1 h2
    refine ⟨rfl, rfl, ?_, ?_, rfl⟩ <;> simp [runLoopAux] <;> omega
  | succ n ih =>
    intro t h1 h2
    rw [runLoopAux]
    by_cases hlt : N < t + 1
    · have ht : N - t = 0 := by omega
      simp [hlt, ht]
    · have ht1 : ¬ (t + 1 = 1) := by omega
      rw [if_neg hlt, if_neg ht1, hrun (t + 1) (by omega) (by omega)]
      obtain ⟨e1, e2, e3, e4, e5⟩ := ih (t + 1) (by omega) (by omega)
      refine ⟨e1, by simpa using e2, ?_, ?_, by simpa using e5⟩
      · show 1 + (runLoopAux env N n (t + 1)).2.run = N - t
        omega
      · show 1 + (runLoopAux env N n (t + 1)).2.fb = N - t
        omega

/-- Claim C2: for every `maxTries = N ≥ 1`, if the runner fails on every
attempt, the loop performs exactly one generation call, N run calls and N
feedback calls (feedback follows every failing run including the last, and
exhaustion is detected at the budget check of the next iteration), exactly
one `stopConversation` call, and no exception reaches the caller. -/
theorem C2_always_fail_exhausts (N : Nat) (env : Env) (cid : Nat)
    (blocks : List (List Char)) (res : Nat → List Char)
    (hN : 1 ≤ N)
    (hstart : env.startConvo = Except.ok cid)
    (hgen : env.genInitial = Except.ok blocks)
    (hrun : ∀ k, 1 ≤ k → k ≤ N → env.runTests k = Except.ok (false, res k)) :
    (processUnit env N).map (fun r => (r.1, r.2.gen, r.2.run, r.2.fb, r.2.stop))
      = Except.ok (Outcome.exhausted, 1, N, N, 1) := by
  unfold processUnit
  rw [hstart]
  unfold runLoop
  rw [runLoopAux]
  have hnot : ¬ (N < 0 + 1) := by omega
  rw [if_neg hnot]
  simp only [Nat.zero_add, if_pos rfl, hgen]
  rw [hrun 1 (by omega) (by omega)]
  obtain ⟨e1, e2, e3, e4, e5⟩ := runLoopAux_allFail env N res hrun N 1 (by omega) (by omega)
  simp only [Except.map]
  refine congrArg Except.ok ?_
  refine Prod.ext ?_ ?_
  · simpa using e1
  · show (1 + (runLoopAux env N N 1).2.gen, 1 + (runLoopAux env N N 1).2.run,
      1 + (runLoopAux env N N 1).2.fb, (runLoopAux env N N 1).2.stop) = (1, N, N, 1)
    rw [e2, e3, e4, e5]
    refine Prod.ext rfl (Prod.ext ?_ (Prod.ext ?_ rfl)) <;> simp <;> omega

/-- Fixture environment: the runner always fails and feedback succeeds. -/
def envC2 : Env :=
  { startConvo := Except.ok 0
    genInitial := Except.ok [("t0").data]
    runTests := fun _ => Except.ok (false, ("failure").data)
    provideFeedback := fun _ _ => ([("revised").data], none) }

/-- Witness for C2 with `maxTries = 2`. -/
theorem C2_always_fail_exhausts_witness :
    1 ≤ 2 ∧ envC2.startConvo = Except.ok 0 ∧
    envC2.genInitial = Except.ok [("t0").data] ∧
    (∀ k, 1 ≤ k → k ≤ 2 → envC2.runTests k = Except.ok (false, ("failure").data)) ∧
    (processUnit envC2 2).map (fun r => (r.1, r.2.gen, r.2.run, r.2.fb, r.2.stop))
      = Except.ok (Outcome.exhausted, 1, 2, 2, 1) :=
  ⟨by decide, rfl, rfl, fun _ _ _ => rfl,
    C2_always_fail_exhausts 2 envC2 0 [("t0").data] (fun _ => ("failure").data)
      (by decide) rfl rfl (fun _ _ _ => rfl)⟩

/-- Fixture environment: `generateInitialTests` returns an error. -/
def envC3 : Env :=
  { startConvo := Except.ok 0
    genInitial := Except.error (Err.other 1)
    runTests := fun _ => Except.ok (false, ("failure").data)
    provideFeedback := fun _ _ => ([[]], none) }

/-- Counterexample for C3 as stated: a first-attempt generation error does
not propagate out of the per-unit loop. The re-thrown `initialTestsErr` is
caught by the catch block of the same loop, which logs and breaks, so the
unit processing returns normally (with the unit aborted) instead of
erroring. -/
theorem C3_counterexample :
    ¬ ((match processUnit envC3 3 with
        | Except.ok _ => false
        | Except.error _ => true) = true) := by
  decide

/-- Claim C3, amended: an error returned by `startConversation` propagates
out of `runCommand` entirely, aborting the remaining units and files, while
a first-attempt `generateInitialTests` error and a thrown `runTests` error
are each caught by the in-loop handler and only abort the current unit,
after which the multi-unit run continues. -/
theorem C3_propagation :
    (∀ (env : Env) (rest : List Env) (maxTries : Nat) (e : Err),
      env.startConvo = Except.error e →
      processUnit env maxTries = Except.error e ∧
      runUnits (env :: rest) maxTries = Except.error e) ∧
    (∀ (env : Env) (rest : List Env) (maxTries : Nat) (cid : Nat) (e : Err)
        (rs : List (Outcome × Counts)),
      1 ≤ maxTries →
      env.startConvo = Except.ok cid →
      env.genInitial = Except.error e →
      runUnits rest maxTries = Except.ok rs →
      processUnit env maxTries = Except.ok (Outcome.abortedUnit, ⟨1, 0, 0, 0, []⟩) ∧
      runUnits (env :: rest) maxTries
        = Except.ok ((Outcome.abortedUnit, ⟨1, 0, 0, 0, []⟩) :: rs)) ∧
    (∀ (env : Env) (maxTries : Nat) (cid : Nat) (blocks : List (List Char)) (e : Err),
      1 ≤ maxTries →
      env.startConvo = Except.ok cid →
      env.genInitial = Except.ok blocks →
      env.runTests 1 = Except.error e →
      processUnit env maxTries
        = Except.ok (Outcome.abortedUnit, ⟨1, 1, 0, 0, [blocks]⟩)) := by
  refine ⟨?_, ?_, ?_⟩
  · intro env rest maxTries e hstart
    have hp : processUnit env maxTries = Except.error e := by
      unfold processUnit
      rw [hstart]
    refine ⟨hp, ?_⟩
    rw [runUnits, hp]
  · intro env rest maxTries cid e rs hmax hstart hgen hrest
    have hp : processUnit env maxTries
        = Except.ok (Outcome.abortedUnit, ⟨1, 0, 0, 0, []⟩) := by
      unfold processUnit
      rw [hstart]
      unfold runLoop
      obtain ⟨k, rfl⟩ : ∃ k, maxTries = k + 1 := ⟨maxTries - 1, by omega⟩
      rw [runLoopAux]
      have hnot : ¬ (k + 1 < 0 + 1) := by omega
      simp [hnot, hgen]
    refine ⟨hp, ?_⟩
    rw [runUnits, hp, hrest]
  · intro env maxTries cid blocks e hmax hstart hgen hrune
    unfold processUnit
    rw [hstart]
    unfold runLoop
    obtain ⟨k, rfl⟩ : ∃ k, maxTries = k + 1 := ⟨maxTries - 1, by omega⟩
    rw [runLoopAux]
    have hnot : ¬ (k + 1 < 0 + 1) := by omega
    simp [hnot, hgen, hrune]

/-- Witness for the amended C3: a start error propagates out of the whole
run, and a generation error leaves the rest of the run intact. -/
theorem C3_propagation_witness :
    ((Env.mk (Except.error (Err.other 7)) (Except.ok [])
        (fun _ => Except.ok (true, [])) (fun _ _ => ([[]], none))).startConvo
      = Except.error (Err.other 7) ∧
     processUnit (Env.mk (Except.error (Err.other 7)) (Except.ok [])
        (fun _ => Except.ok (true, [])) (fun _ _ => ([[]], none))) 3
      = Except.error (Err.other 7) ∧
     runUnits [Env.mk (Except.error (Err.other 7)) (Except.ok [])
        (fun _ => Except.ok (true, [])) (fun _ _ => ([[]], none))] 3
      = Except.error (Err.other 7)) ∧
    (1 ≤ 3 ∧ envC3.startConvo = Except.ok 0 ∧
     envC3.genInitial = Except.error (Err.other 1) ∧
     runUnits [] 3 = Except.ok [] ∧
     processUnit envC3 3 = Except.ok (Outcome.abortedUnit, ⟨1, 0, 0, 0, []⟩) ∧
     runUnits [envC3] 3 = Except.ok [(Outcome.abortedUnit, ⟨1, 0, 0, 0, []⟩)]) :=
  ⟨⟨rfl,
    (C3_propagation.1 (Env.mk (Except.error (Err.other 7)) (Except.ok [])
      (fun _ => Except.ok (true, [])) (fun _ _ => ([[]], none))) [] 3 (Err.other 7) rfl).1,
    (C3_propagation.1 (Env.mk (Except.error (Err.other 7)) (Except.ok [])
      (fun _ => Except.ok (true, [])) (fun _ _ => ([[]], none))) [] 3 (Err.other 7) rfl).2⟩,
   ⟨by decide, rfl, rfl, rfl,
    (C3_propagation.2.1 envC3 [] 3 0 (Err.other 1) [] (by decide) rfl rfl rfl).1,
    (C3_propagation.2.1 envC3 [] 3 0 (Err.other 1) [] (by decide) rfl rfl rfl).2⟩⟩

/-- Claim C9: when `provideFeedback` returns a non-null error, the loop
ignores the error: the returned blocks are still written to the test file
and the loop proceeds to the next attempt instead of aborting the unit.
The first conjunct covers attempts after the first, the second covers the
first attempt (where generation precedes the run). -/
theorem C9_feedback_error_ignored (env : Env) (N fuel : Nat) :
    (∀ t results blocks e, 1 ≤ t → t + 1 ≤ N →
      env.runTests (t + 1) = Except.ok (false, results) →
      env.provideFeedback (t + 1) results = (blocks, some e) →
      runLoopAux env N (fuel + 1) t
        = ((runLoopAux env N fuel (t + 1)).1,
           ⟨(runLoopAux env N fuel (t + 1)).2.gen,
            1 + (runLoopAux env N fuel (t + 1)).2.run,
            1 + (runLoopAux env N fuel (t + 1)).2.fb,
            (runLoopAux env N fuel (t + 1)).2.stop,
            blocks :: (runLoopAux env N fuel (t + 1)).2.writes⟩)) ∧
    (∀ results blocks0 blocks e, 1 ≤ N →
      env.genInitial = Except.ok blocks0 →
      env.runTests 1 = Except.ok (false, results) →
      env.provideFeedback 1 results = (blocks, some e) →
      runLoopAux env N (fuel + 1) 0
        = ((runLoopAux env N fuel 1).1,
           ⟨1 + (runLoopAux env N fuel 1).2.gen,
            1 + (runLoopAux env N fuel 1).2.run,
            1 + (runLoopAux env N fuel 1).2.fb,
            (runLoopAux env N fuel 1).2.stop,
            blocks0 :: blocks :: (runLoopAux env N fuel 1).2.writes⟩)) := by
  constructor
  · intro t results blocks e h1 hle hrun hfb
    rw [runLoopAux]
    have hnot : ¬ (N < t + 1) := by omega
    have ht1 : ¬ (t + 1 = 1) := by omega
    rw [if_neg hnot, if_neg ht1, hrun]
    dsimp only
    rw [hfb]
  · intro results blocks0 blocks e hN hgen hrun hfb
    rw [runLoopAux]
    have hnot : ¬ (N < 0 + 1) := by omega
    rw [if_neg hnot]
    simp [hgen, hrun, hfb]

/-- Fixture environment: the runner always fails and feedback always
returns the terminal error with a single empty block. -/
def envC9 : Env :=
  { startConvo := Except.ok 0
    genInitial := Except.ok [("t0").data]
    runTests := fun _ => Except.ok (false, ("boom").data)
    provideFeedback := fun _ _ => ([[]], some Err.failedToProvideFeedback) }

/-- Witness for C9 at attempt 2 of a run with `maxTries = 2`: the failing
feedback result (a single empty string) is written and the loop continues
into the next iteration. -/
theorem C9_feedback_error_ignored_witness :
    1 ≤ 1 ∧ 1 + 1 ≤ 2 ∧
    envC9.runTests (1 + 1) = Except.ok (false, ("boom").data) ∧
    envC9.provideFeedback (1 + 1) ("boom").data = ([[]], some Err.failedToProvideFeedback) ∧
    runLoopAux envC9 2 (1 + 1) 1
      = ((runLoopAux envC9 2 1 (1 + 1)).1,
         ⟨(runLoopAux envC9 2 1 (1 + 1)).2.gen,
          1 + (runLoopAux envC9 2 1 (1 + 1)).2.run,
          1 + (runLoopAux envC9 2 1 (1 + 1)).2.fb,
          (runLoopAux envC9 2 1 (1 + 1)).2.stop,
          [[]] :: (runLoopAux envC9 2 1 (1 + 1)).2.writes⟩) :=
  ⟨by decide, by decide, rfl, rfl,
    (C9_feedback_error_ignored envC9 2 1).1 1 ("boom").data [[]]
      Err.failedToProvideFeedback (by decide) (by decide) rfl rfl⟩

/-! ## Claim about file discovery -/

theorem isPrefixOf_iff (pat s : List Char) : pat.isPrefixOf s = true ↔ pat <+: s := by
  induction pat generalizing s with
  | nil => simp [List.isPrefixOf]
  | cons a as ih =>
    cases s with
    | nil => simp [List.isPrefixOf]
    | cons b bs => simp [List.isPrefixOf, ih, List.cons_prefix_cons]

theorem hasSubstr_iff_occurs (pat s : List Char) : hasSubstr pat s = true ↔ pat <:+: s := by
  induction s with
  | nil =>
    cases pat with
    | nil => simp [hasSubstr, List.isPrefixOf]
    | cons a as => simp [hasSubstr, List.isPrefixOf]
  | cons c cs ih =>
    rw [hasSubstr]
    simp [isPrefixOf_iff, ih, List.infix_cons_iff]

theorem isSuffixOf_iff (pat s : List Char) : pat.isSuffixOf s = true ↔ pat <:+ s := by
  rw [List.isSuffixOf, isPrefixOf_iff, List.reverse_prefix]

theorem hasSubstr_of_suffix (pat tail s : List Char) (hinf : pat <:+: tail)
    (h : tail.isSuffixOf s = true) : hasSubstr pat s = true := by
  rw [isSuffixOf_iff] at h
  rw [hasSubstr_iff_occurs]
  exact hinf.trans h.isInfix

theorem getFilesRecursively_filter (fuel : Nat) :
    ∀ dir entries p, p ∈ getFilesRecursively fuel dir entries →
      ((".js").data.isSuffixOf p || (".ts").data.isSuffixOf p) = true ∧
      hasSubstr (".test.").data p = false ∧
      hasSubstr (".spec.").data p = false ∧
      hasSubstr (".d.").data p = false := by
  induction fuel with
  | zero => intro dir entries p hp; simp [getFilesRecursively] at hp
  | succ n ih =>
    intro dir entries p hp
    match entries with
    | [] => simp [getFilesRecursively] at hp
    | FSEntry.file name :: rest =>
      rw [getFilesRecursively] at hp
      by_cases hsfx : ((".js").data.isSuffixOf (joinPath dir name)
          || (".ts").data.isSuffixOf (joinPath dir name)) = true
      · rw [if_pos hsfx] at hp
        by_cases hskip : (hasSubstr (".test.").data (joinPath dir name)
            || hasSubstr (".spec.").data (joinPath dir name)
            || hasSubstr (".d.").data (joinPath dir name)) = true
        · rw [if_pos hskip] at hp
          exact ih dir rest p hp
        · rw [if_neg hskip] at hp
          rcases List.mem_cons.mp hp with heq | hmem
          · subst heq
            simp only [Bool.or_eq_true, not_or, Bool.not_eq_true] at hskip
            exact ⟨hsfx, hskip.1.1, hskip.1.2, hskip.2⟩
          · exact ih dir rest p hmem
      · rw [if_neg hsfx] at hp
        exact ih dir rest p hp
    | FSEntry.dir name sub :: rest =>
      rw [getFilesRecursively] at hp
      rcases List.mem_append.mp hp with hmem | hmem
      · exact ih (joinPath dir name) sub p hmem
      · exact ih dir rest p hmem

/-- Claim C10: file discovery yields only paths ending in `.js` or `.ts`
whose full path contains none of `.test.`, `.spec.`, `.d.`; consequently a
test file named with the `.ut.test.ts` convention written by the tool
itself is never returned by discovery. -/
theorem C10_discovery_filter :
    (∀ fuel dir entries p, p ∈ getFilesRecursively fuel dir entries →
      ((".js").data.isSuffixOf p || (".ts").data.isSuffixOf p) = true ∧
      hasSubstr (".test.").data p = false ∧
      hasSubstr (".spec.").data p = false ∧
      hasSubstr (".d.").data p = false) ∧
    (∀ fuel dir entries p, (".ut.test.ts").data.isSuffixOf p = true →
      p ∉ getFilesRecursively fuel dir entries) := by
  constructor
  · exact getFilesRecursively_filter
  · intro fuel dir entries p hsfx hp
    have h := (getFilesRecursively_filter fuel dir entries p hp).2.1
    have ht : hasSubstr (".test.").data p = true :=
      hasSubstr_of_suffix (".test.").data (".ut.test.ts").data p
        ((hasSubstr_iff_occurs _ _).mp (by decide)) hsfx
    rw [ht] at h
    exact Bool.true_eq_false.mp h

/-- Fixture filesystem for the C10 witness. -/
def fsA : List FSEntry :=
  [FSEntry.file ("run.ts").data,
   FSEntry.dir ("sub").data
     [FSEntry.file ("add.ut.test.ts").data, FSEntry.file ("util.js").data],
   FSEntry.file ("notes.md").data]

/-- Witness for C10 on the fixture filesystem. -/
theorem C10_discovery_filter_witness :
    ("root/run.ts").data ∈ getFilesRecursively 5 ("root").data fsA ∧
    (((".js").data.isSuffixOf ("root/run.ts").data
        || (".ts").data.isSuffixOf ("root/run.ts").data) = true ∧
     hasSubstr (".test.").data ("root/run.ts").data = false ∧
     hasSubstr (".spec.").data ("root/run.ts").data = false ∧
     hasSubstr (".d.").data ("root/run.ts").data = false) ∧
    (".ut.test.ts").data.isSuffixOf ("root/sub/add.ut.test.ts").data = true ∧
    ("root/sub/add.ut.test.ts").data ∉ getFilesRecursively 5 ("root").data fsA :=
  ⟨by decide,
   C10_discovery_filter.1 5 ("root").data fsA ("root/run.ts").data (by decide),
   by decide,
   C10_discovery_filter.2 5 ("root").data fsA ("root/sub/add.ut.test.ts").data (by decide)⟩
